import Mathlib

/-!
Verification development for the go-worktree repository: a shallow
embedding of the worktree manager (`internal/worktree`), the git client
(`internal/git`) and the command handlers (`main.go`), together with
theorems about the claims of the specification.

External effects (running `git`, `os.Stat`, `os.MkdirAll`, `os.ReadDir`,
`os.UserHomeDir`) are modelled by an environment that fixes the outcome
of each call; the manager's functions are pure functions of that
environment that additionally report which mutating git steps they
invoked, and the receiver state after the call.
-/

/-! ## Go `strings` and `path/filepath` helpers -/

/-- Whitespace predicate used by Go's `strings.TrimSpace` and
`strings.Fields` (`unicode.IsSpace`), restricted to the Latin-1 range:
space, tab, newline, vertical tab, form feed, carriage return, NEL and
NBSP.  (Go additionally marks a handful of higher Unicode space code
points; none of the claims depend on those.) -/
def goIsSpace (c : Char) : Bool :=
  c == ' ' || c == '\t' || c == '\n' || c == Char.ofNat 11 ||
    c == Char.ofNat 12 || c == '\r' || c == Char.ofNat 133 || c == Char.ofNat 160

/-- Go `strings.TrimSpace`: drop leading and trailing whitespace. -/
def trimSpace (s : String) : String :=
  String.mk (((s.data.dropWhile goIsSpace).reverse.dropWhile goIsSpace).reverse)

/-- Go `strings.Split` with a non-empty separator (the source only uses
separator `"\n"`); Lean's `String.splitOn` has the same semantics,
including `Split("", sep) = [""]`. -/
def stringsSplit (s sep : String) : List String :=
  s.splitOn sep

/-- Worker for `stringsFields`; the fuel argument (initially the length
of the character list) only bounds the recursion, each step consumes at
least one character. -/
def fieldsGo : Nat → List Char → List (List Char)
  | 0, _ => []
  | _, [] => []
  | fuel + 1, c :: rest =>
    if goIsSpace c then fieldsGo fuel rest
    else (c :: rest.takeWhile (fun x => goIsSpace x = false)) ::
      fieldsGo fuel (rest.dropWhile (fun x => goIsSpace x = false))

/-- Go `strings.Fields`: split around maximal runs of whitespace,
producing no empty fields. -/
def stringsFields (s : String) : List String :=
  (fieldsGo s.data.length s.data).map String.mk

/-- Go `strings.Trim`: drop leading and trailing characters that appear
in the cutset. -/
def trimCutset (s : String) (cutset : List Char) : String :=
  String.mk (((s.data.dropWhile (fun c => cutset.contains c)).reverse.dropWhile
    (fun c => cutset.contains c)).reverse)

/-- Backtracking loop of `filepath.Clean`'s `..` case: starting from
index `w` (already decremented once), keep decrementing while
`w > dotdot` and `buf[w] ≠ '/'`; returns the new buffer length. -/
def popLoop (buf : List Char) (dotdot : Nat) : Nat → Nat
  | 0 => 0
  | w + 1 =>
    if dotdot < w + 1 ∧ buf.getD (w + 1) ' ' ≠ '/' then popLoop buf dotdot w
    else w + 1

/-- Main loop of Go `path/filepath.Clean` (Unix rules), with the output
buffer as a character list.  The fuel argument (initially the length of
the remaining path) only bounds the recursion, each step consumes at
least one character. -/
def cleanLoop (rooted : Bool) : Nat → List Char → List Char → Nat → List Char
  | 0, _, out, _ => out
  | _, [], out, _ => out
  | fuel + 1, c :: rest, out, dotdot =>
    if c = '/' then
      cleanLoop rooted fuel rest out dotdot
    else if c = '.' ∧ (rest.head? = none ∨ rest.head? = some '/') then
      cleanLoop rooted fuel rest out dotdot
    else if c = '.' ∧ rest.head? = some '.' ∧
        ((rest.drop 1).head? = none ∨ (rest.drop 1).head? = some '/') then
      if dotdot < out.length then
        cleanLoop rooted fuel (rest.drop 1)
          (out.take (popLoop out dotdot (out.length - 1))) dotdot
      else if rooted = false then
        cleanLoop rooted fuel (rest.drop 1)
          ((if 0 < out.length then out ++ ['/'] else out) ++ ['.', '.'])
          ((if 0 < out.length then out ++ ['/'] else out) ++ ['.', '.']).length
      else
        cleanLoop rooted fuel (rest.drop 1) out dotdot
    else
      cleanLoop rooted fuel ((c :: rest).dropWhile (fun x => x ≠ '/'))
        ((if (rooted ∧ out.length ≠ 1) ∨ (rooted = false ∧ out.length ≠ 0)
          then out ++ ['/'] else out) ++ (c :: rest).takeWhile (fun x => x ≠ '/'))
        dotdot

/-- Go `path/filepath.Clean` on Unix: `FromSlash` is the identity and
the volume name is empty. -/
def fpClean (path : String) : String :=
  if path = "" then "."
  else
    let cs := path.data
    let rooted := cs.head? == some '/'
    let out := cleanLoop rooted (if rooted then cs.drop 1 else cs).length
      (if rooted then cs.drop 1 else cs) (if rooted then ['/'] else [])
      (if rooted then 1 else 0)
    if out.length = 0 then "." else String.mk out

/-- Go `path/filepath.Join`: skip leading empty elements, join the rest
with `/` and clean; all elements empty gives `""`. -/
def filepathJoin : List String → String
  | [] => ""
  | e :: rest => if e ≠ "" then fpClean (String.intercalate "/" (e :: rest))
                 else filepathJoin rest

/-- Go `path/filepath.Dir` on Unix: everything up to and including the
last separator, cleaned. -/
def fpDir (path : String) : String :=
  fpClean (String.mk ((path.data.reverse.dropWhile (fun c => c ≠ '/')).reverse))

/-- Go `path/filepath.Base` on Unix: strip trailing separators, then
keep the part after the last separator. -/
def fpBase (path : String) : String :=
  if path = "" then "."
  else
    let cs := (path.data.reverse.dropWhile (fun c => c = '/')).reverse
    let base := (cs.reverse.takeWhile (fun c => c ≠ '/')).reverse
    if base = [] then "/" else String.mk base

/-- Substring test on character lists: some tail of `l` starts with
`sub`. -/
def listContainsSub (sub l : List Char) : Bool :=
  l.tails.any (fun t => sub.isPrefixOf t)

/-- Substring test on strings. -/
def strContains (s sub : String) : Bool :=
  listContainsSub sub.data s.data

/-! ## Git client (`internal/git/git.go`) -/

/-- A git worktree record as parsed from `git worktree list`. -/
structure Worktree where
  Path : String
  Branch : String
deriving DecidableEq, Repr

/-- Result of running one external command, abstracting the
`os/exec` layer: `exitOk` is whether `Run`/`Output`/`CombinedOutput`
returned a nil error, `stdout` the captured standard output, `combined`
the combined output, and `errMsg` the text of the non-nil error
(for example "exit status 128"). -/
structure CmdResult where
  exitOk : Bool
  stdout : String
  combined : String
  errMsg : String
deriving DecidableEq, Repr

/-- Parsing loop of `Client.ListWorktrees`: split the trimmed output
into lines, split each line into whitespace-delimited fields, skip
lines with fewer than three fields, and append a record taking the
path from the first field and the branch from the third field with
surrounding brackets trimmed. -/
def parseWorktrees (output : String) : List Worktree :=
  (stringsSplit (trimSpace output) "\n").foldl (fun worktrees line =>
    if (stringsFields line).length < 3 then worktrees
    else worktrees ++ [{ Path := (stringsFields line).getD 0 "",
                         Branch := trimCutset ((stringsFields line).getD 2 "") ['[', ']'] }]) []

/-- Per-line parsing in the spec's formulation: `none` for a malformed
line (fewer than three fields), otherwise exactly one record with the
first field as path and the bracket-trimmed third field as branch. -/
def parseLine (line : String) : Option Worktree :=
  if (stringsFields line).length < 3 then none
  else some { Path := (stringsFields line).getD 0 "",
              Branch := trimCutset ((stringsFields line).getD 2 "") ['[', ']'] }

/-- The spec's formulation of the whole parse: a `filterMap` of
`parseLine` over the lines of the trimmed input. -/
def parseWorktreesSpec (output : String) : List Worktree :=
  (stringsSplit (trimSpace output) "\n").filterMap parseLine

/-- `Client.GetRepoName`: `git rev-parse --show-toplevel` via
`cmd.Output()`; on success the basename of the trimmed output, on
failure an error wrapping only the exec error. -/
def Client.GetRepoName (res : CmdResult) : Except String String :=
  if res.exitOk then Except.ok (fpBase (trimSpace res.stdout))
  else Except.error ("not in a git repository: " ++ res.errMsg)

/-- `Client.FetchBranch`: `git fetch origin <branch>` via `cmd.Run()`;
`none` on success, otherwise an error wrapping only the exec error. -/
def Client.FetchBranch (branch : String) (res : CmdResult) : Option String :=
  if res.exitOk then none
  else some ("failed to fetch branch: " ++ res.errMsg)

/-- `Client.CreateWorktree`: `git worktree add <path> -b <branch>` via
`cmd.CombinedOutput()`; the error carries the combined output. -/
def Client.CreateWorktree (path branchName : String) (res : CmdResult) : Option String :=
  if res.exitOk then none
  else some (res.combined ++ ": " ++ res.errMsg)

/-- `Client.RemoveWorktree`: `git worktree remove <path>` via
`cmd.CombinedOutput()`; the error carries the combined output. -/
def Client.RemoveWorktree (path : String) (res : CmdResult) : Option String :=
  if res.exitOk then none
  else some (res.combined ++ ": " ++ res.errMsg)

/-- `Client.DeleteBranch`: `git branch -D <branch>` via
`cmd.CombinedOutput()`; the error carries the combined output. -/
def Client.DeleteBranch (branchName : String) (res : CmdResult) : Option String :=
  if res.exitOk then none
  else some (res.combined ++ ": " ++ res.errMsg)

/-- `Client.ListWorktrees`: `git worktree list` via `cmd.Output()`; on
success the parsed records, on failure an error wrapping only the exec
error. -/
def Client.ListWorktrees (res : CmdResult) : Except String (List Worktree) :=
  if res.exitOk then Except.ok (parseWorktrees res.stdout)
  else Except.error ("failed to list worktrees: " ++ res.errMsg)

/-- Boolean success test for `Except`. -/
def exceptIsOk {ε α : Type} : Except ε α → Bool
  | Except.ok _ => true
  | Except.error _ => false

/-! ## Worktree manager (`internal/worktree/worktree.go`) -/

/-- Outcome of an `os.Stat` call, as discriminated by the source:
success, an error satisfying `errors.Is(err, fs.ErrNotExist)`, or any
other error (for example a permission error). -/
inductive StatOutcome
  | ok
  | errNotExist
  | errOther
deriving DecidableEq, Repr

/-- One entry returned by `os.ReadDir`. -/
structure DirEntry where
  name : String
  isDir : Bool
deriving DecidableEq, Repr

/-- A mutating git step invoked by a manager operation. -/
inductive GitStep
  | fetchBranch (branch : String)
  | createWorktree (path branch : String)
  | removeWorktree (path : String)
  | deleteBranch (branch : String)
deriving DecidableEq, Repr

/-- Environment fixing the outcome of every external call: the results
of the git client operations as observed by the manager, and the
filesystem calls keyed by path. -/
structure Env where
  userHomeDir : Except String String
  getRepoName : Except String String
  mkdirAll : String → Option String
  stat : String → StatOutcome
  fetchBranch : String → Option String
  createWorktree : String → String → Option String
  removeWorktree : String → Option String
  deleteBranch : String → Option String
  listWorktrees : Except String (List Worktree)
  readDir : String → Except String (List DirEntry)

/-- The manager's configuration; the git client itself is stateless, so
only the base path is carried. -/
structure Manager where
  basePath : String
deriving DecidableEq, Repr

/-- Result of a manager operation: the returned value or error, the
mutating git steps invoked in order, and the receiver state after the
call (the Go methods never assign to the receiver's fields, so each
returns it unchanged). -/
structure OpResult (α : Type) where
  result : Except String α
  steps : List GitStep
  post : Manager
deriving Repr

/-- `getWorktreeBasePath`: the user's home directory joined with
"worktrees". -/
def getWorktreeBasePath (env : Env) : Except String String :=
  match env.userHomeDir with
  | Except.error e => Except.error ("could not find home directory: " ++ e)
  | Except.ok home => Except.ok (filepathJoin [home, "worktrees"])

/-- `NewManager`: resolve the base path once, falling back to the
literal "~/worktrees" when the home directory cannot be determined. -/
def NewManager (env : Env) : Manager :=
  match getWorktreeBasePath env with
  | Except.error _ => { basePath := "~/worktrees" }
  | Except.ok basePath => { basePath := basePath }

/-- `Manager.GetPath`: the repository name from git, joined under the
base path with the ticket. -/
def Manager.GetPath (m : Manager) (env : Env) (ticket : String) : OpResult String :=
  match env.getRepoName with
  | Except.error e => ⟨Except.error e, [], m⟩
  | Except.ok repo => ⟨Except.ok (filepathJoin [m.basePath, repo, ticket]), [], m⟩

/-- `Manager.Create`: resolve the repository name, ensure the parent
directory exists, fail if the target directory already exists (any
`Stat` outcome other than not-exist), fetch the base branch ignoring
failures (a warning is printed), then create the worktree with a new
branch named after the ticket. -/
def Manager.Create (m : Manager) (env : Env) (ticket baseBranch : String) : OpResult Unit :=
  match env.getRepoName with
  | Except.error e => ⟨Except.error e, [], m⟩
  | Except.ok repo =>
    match env.mkdirAll (fpDir (filepathJoin [m.basePath, repo, ticket])) with
    | some e => ⟨Except.error ("failed to create directory: " ++ e), [], m⟩
    | none =>
      match env.stat (filepathJoin [m.basePath, repo, ticket]) with
      | StatOutcome.errNotExist =>
        match env.createWorktree (filepathJoin [m.basePath, repo, ticket]) ticket with
        | some e => ⟨Except.error ("failed to create worktree: " ++ e),
            [GitStep.fetchBranch baseBranch,
             GitStep.createWorktree (filepathJoin [m.basePath, repo, ticket]) ticket], m⟩
        | none => ⟨Except.ok (),
            [GitStep.fetchBranch baseBranch,
             GitStep.createWorktree (filepathJoin [m.basePath, repo, ticket]) ticket], m⟩
      | _ => ⟨Except.error ("directory already exists: " ++
          filepathJoin [m.basePath, repo, ticket]), [], m⟩

/-- `Manager.Delete`: resolve the worktree path, fail with a not-found
error if it does not exist on disk, remove the worktree, then delete
the branch when requested. -/
def Manager.Delete (m : Manager) (env : Env) (ticket : String) (deleteBranch : Bool) :
    OpResult Unit :=
  match (Manager.GetPath m env ticket).result with
  | Except.error e => ⟨Except.error e, [], m⟩
  | Except.ok worktreePath =>
    match env.stat worktreePath with
    | StatOutcome.errNotExist =>
      ⟨Except.error ("worktree for ticket " ++ ticket ++ " not found"), [], m⟩
    | _ =>
      match env.removeWorktree worktreePath with
      | some e => ⟨Except.error ("failed to remove worktree: " ++ e),
          [GitStep.removeWorktree worktreePath], m⟩
      | none =>
        if deleteBranch then
          match env.deleteBranch ticket with
          | some e => ⟨Except.error ("failed to delete branch: " ++ e),
              [GitStep.removeWorktree worktreePath, GitStep.deleteBranch ticket], m⟩
          | none => ⟨Except.ok (),
              [GitStep.removeWorktree worktreePath, GitStep.deleteBranch ticket], m⟩
        else ⟨Except.ok (), [GitStep.removeWorktree worktreePath], m⟩

/-- The path-to-branch map `Manager.List` builds from git's worktree
records; a later record with the same path overwrites an earlier one,
as with assignment into a Go map. -/
def worktreeMapOf (worktrees : List Worktree) : String → Option String :=
  worktrees.foldl (fun worktreeMap wt =>
    fun p => if p = wt.Path then some wt.Branch else worktreeMap p) (fun _ => none)

/-- One printed line of `Manager.List`: ticket, path and branch label. -/
structure ListRow where
  ticket : String
  path : String
  branch : String
deriving DecidableEq, Repr

/-- `Manager.List`: cross-reference git's worktree records with the
directory entries under basePath/repo; a directory entry whose joined
path has no git record is labelled "detached".  A missing repo
directory or an empty entry list prints a notice and yields no rows. -/
def Manager.List (m : Manager) (env : Env) : OpResult (List ListRow) :=
  match env.getRepoName with
  | Except.error e => ⟨Except.error e, [], m⟩
  | Except.ok repo =>
    match env.listWorktrees with
    | Except.error e => ⟨Except.error ("failed to list worktrees: " ++ e), [], m⟩
    | Except.ok worktrees =>
      match env.stat (filepathJoin [m.basePath, repo]) with
      | StatOutcome.errNotExist => ⟨Except.ok [], [], m⟩
      | _ =>
        match env.readDir (filepathJoin [m.basePath, repo]) with
        | Except.error e => ⟨Except.error ("failed to read worktree directory: " ++ e), [], m⟩
        | Except.ok entries =>
          ⟨Except.ok (entries.foldl (fun rows entry =>
            if entry.isDir = false then rows
            else rows ++ [{ ticket := entry.name,
                            path := filepathJoin [filepathJoin [m.basePath, repo], entry.name],
                            branch := (match worktreeMapOf worktrees
                                (filepathJoin [filepathJoin [m.basePath, repo], entry.name]) with
                              | some b => b
                              | none => "detached") }]) []), [], m⟩

/-! ## Command handlers (`main.go`): exit status of each handler -/

/-- `handleCreate`: exit 1 when `Create` returns an error, 0 otherwise. -/
def handleCreate (env : Env) (ticket baseBranch : String) : Nat :=
  match (Manager.Create (NewManager env) env ticket baseBranch).result with
  | Except.error _ => 1
  | Except.ok _ => 0

/-- `handleDelete`: exit 1 when `Delete` returns an error, 0 otherwise. -/
def handleDelete (env : Env) (ticket : String) (deleteBranch : Bool) : Nat :=
  match (Manager.Delete (NewManager env) env ticket deleteBranch).result with
  | Except.error _ => 1
  | Except.ok _ => 0

/-- `handleList`: exit 1 when `List` returns an error, 0 otherwise. -/
def handleList (env : Env) : Nat :=
  match (Manager.List (NewManager env) env).result with
  | Except.error _ => 1
  | Except.ok _ => 0

/-- `handleCD`: exit 1 when `GetPath` returns an error, 0 otherwise. -/
def handleCD (env : Env) (ticket : String) : Nat :=
  match (Manager.GetPath (NewManager env) env ticket).result with
  | Except.error _ => 1
  | Except.ok _ => 0

/-! ## Concrete environments for witnesses and counterexamples -/

/-- A manager with a fixed base path, as in the repository's tests. -/
def m1 : Manager := { basePath := "/base" }

/-- Environment in which every external call succeeds; the target
directory exists (`stat` succeeds), and git reports one worktree for
ticket T-1. -/
def env1 : Env where
  userHomeDir := Except.ok "/home/u"
  getRepoName := Except.ok "repo"
  mkdirAll := fun _ => none
  stat := fun _ => StatOutcome.ok
  fetchBranch := fun _ => none
  createWorktree := fun _ _ => none
  removeWorktree := fun _ => none
  deleteBranch := fun _ => none
  listWorktrees := Except.ok [{ Path := "/base/repo/T-1", Branch := "feature-x" }]
  readDir := fun _ => Except.ok [{ name := "T-1", isDir := true }]

/-- Like `env1` but `os.Stat` fails with an error that is not
not-exist (for example a permission error). -/
def env2 : Env := { env1 with stat := fun _ => StatOutcome.errOther }

/-- Like `env1` but the target path does not exist and fetching from
the remote fails. -/
def env3 : Env := { env1 with stat := fun _ => StatOutcome.errNotExist,
                              fetchBranch := fun _ => some "could not resolve host" }

/-- Like `env1` but deleting the branch fails. -/
def env4 : Env := { env1 with deleteBranch := fun _ => some "branch gone" }

/-! ## Helper lemmas -/

theorem parseWorktrees_foldl (lines : List String) :
    ∀ acc : List Worktree,
      lines.foldl (fun worktrees line =>
        if (stringsFields line).length < 3 then worktrees
        else worktrees ++ [{ Path := (stringsFields line).getD 0 "",
                             Branch := trimCutset ((stringsFields line).getD 2 "")
                               ['[', ']'] }]) acc
        = acc ++ lines.filterMap parseLine := by
  induction lines with
  | nil => intro acc; simp
  | cons line rest ih =>
    intro acc
    rw [List.foldl_cons, List.filterMap_cons, ih]
    by_cases h : (stringsFields line).length < 3
    · rw [if_pos h]
      have hp : parseLine line = none := by unfold parseLine; rw [if_pos h]
      rw [hp]
    · rw [if_neg h]
      have hp : parseLine line = some ⟨(stringsFields line).getD 0 "",
          trimCutset ((stringsFields line).getD 2 "") ['[', ']']⟩ := by
        unfold parseLine; rw [if_neg h]
      rw [hp]
      simp

theorem worktreeMapFoldl_none_iff (wts : List Worktree) (p : String) :
    ∀ acc : String → Option String,
      (wts.foldl (fun worktreeMap wt =>
        fun q => if q = wt.Path then some wt.Branch else worktreeMap q) acc) p = none ↔
        (acc p = none ∧ ∀ wt ∈ wts, wt.Path ≠ p) := by
  induction wts with
  | nil => intro acc; simp
  | cons wt rest ih =>
    intro acc
    rw [List.foldl_cons, ih]
    by_cases h : p = wt.Path
    · subst h; simp
    · simp [h, Ne.symm h]

theorem worktreeMapFoldl_some (wts : List Worktree) (p b : String) :
    ∀ acc : String → Option String,
      (wts.foldl (fun worktreeMap wt =>
        fun q => if q = wt.Path then some wt.Branch else worktreeMap q) acc) p = some b →
        (∃ wt ∈ wts, wt.Path = p ∧ wt.Branch = b) ∨ acc p = some b := by
  induction wts with
  | nil => intro acc h; exact Or.inr h
  | cons wt rest ih =>
    intro acc h
    rcases ih _ h with h1 | h1
    · obtain ⟨wt2, hmem, hp, hb⟩ := h1
      exact Or.inl ⟨wt2, List.mem_cons_of_mem _ hmem, hp, hb⟩
    · by_cases hp : p = wt.Path
      · refine Or.inl ⟨wt, List.mem_cons_self _ _, hp.symm, ?_⟩
        simpa [hp] using h1
      · exact Or.inr (by simpa [hp] using h1)

theorem worktreeMapOf_none_iff (wts : List Worktree) (p : String) :
    worktreeMapOf wts p = none ↔ ∀ wt ∈ wts, wt.Path ≠ p := by
  unfold worktreeMapOf
  rw [worktreeMapFoldl_none_iff]
  simp

theorem worktreeMapOf_some (wts : List Worktree) (p b : String) :
    worktreeMapOf wts p = some b → ∃ wt ∈ wts, wt.Path = p ∧ wt.Branch = b := by
  unfold worktreeMapOf
  intro h
  rcases worktreeMapFoldl_some wts p b _ h with h1 | h1
  · exact h1
  · cases h1

theorem listRows_foldl (m : Manager) (repo : String) (worktrees : List Worktree)
    (entries : List DirEntry) :
    ∀ acc : List ListRow,
      entries.foldl (fun rows entry =>
        if entry.isDir = false then rows
        else rows ++ [{ ticket := entry.name,
                        path := filepathJoin [filepathJoin [m.basePath, repo], entry.name],
                        branch := (match worktreeMapOf worktrees
                            (filepathJoin [filepathJoin [m.basePath, repo], entry.name]) with
                          | some b => b
                          | none => "detached") }]) acc
      = acc ++ (entries.filter (fun entry => entry.isDir)).map (fun entry =>
          { ticket := entry.name,
            path := filepathJoin [filepathJoin [m.basePath, repo], entry.name],
            branch := (match worktreeMapOf worktrees
                (filepathJoin [filepathJoin [m.basePath, repo], entry.name]) with
              | some b => b
              | none => "detached") }) := by
  induction entries with
  | nil => intro acc; simp
  | cons entry rest ih =>
    intro acc
    rw [List.foldl_cons]
    by_cases h : entry.isDir
    · simp only [h, List.filter_cons_of_pos, List.map_cons, ih, Bool.true_eq_false,
        ite_false, List.append_assoc, List.singleton_append]
    · have h2 : entry.isDir = false := by simpa using h
      simp only [h2, List.filter_cons_of_neg, ih, ite_true]
      simp [h2]

theorem isPrefixOf_append_self (a : List Char) :
    ∀ rest : List Char, a.isPrefixOf (a ++ rest) = true := by
  induction a with
  | nil => intro rest; simp [List.isPrefixOf]
  | cons c cs ih => intro rest; simp [List.isPrefixOf, ih]

theorem strContains_append_self (a b c : String) :
    strContains (a ++ b ++ c) a = true := by
  unfold strContains listContainsSub
  rw [List.any_eq_true]
  refine ⟨(a ++ b ++ c).data, ?_, ?_⟩
  · rw [List.mem_tails]
  · rw [String.data_append, String.data_append, List.append_assoc]
    exact isPrefixOf_append_self _ _

/-! ## Claim theorems -/

/-- C3: for every input text, `ListWorktrees`' parsing loop splits the
trimmed text into lines, splits each line on whitespace, skips every
line with fewer than three fields, and for every other line produces
exactly one record whose path is the first field and whose branch is
the third field with surrounding brackets trimmed — that is, it equals
the `filterMap` of the per-line rule over the lines. -/
theorem listWorktrees_parses (output : String) :
    parseWorktrees output = parseWorktreesSpec output := by
  unfold parseWorktrees parseWorktreesSpec
  rw [parseWorktrees_foldl]
  simp

/-- C2: whenever the repository-name lookup succeeds, `GetPath` returns
exactly the path join of the base path, the repository name and the
ticket; and it is deterministic, depending only on that lookup's
result (and the manager's base path and the ticket). -/
theorem getPath_is_join (m : Manager) (env env' : Env) (ticket repo : String)
    (h : env.getRepoName = Except.ok repo) :
    (Manager.GetPath m env ticket).result =
      Except.ok (filepathJoin [m.basePath, repo, ticket]) ∧
    (env'.getRepoName = env.getRepoName →
      Manager.GetPath m env' ticket = Manager.GetPath m env ticket) := by
  constructor
  · simp [Manager.GetPath, h]
  · intro he
    simp only [Manager.GetPath, he]

theorem getPath_is_join_witness :
    (Manager.GetPath m1 env1 "T-1").result =
      Except.ok (filepathJoin [m1.basePath, "repo", "T-1"]) ∧
    (env1.getRepoName = env1.getRepoName →
      Manager.GetPath m1 env1 "T-1" = Manager.GetPath m1 env1 "T-1") :=
  getPath_is_join m1 env1 env1 "T-1" "repo" rfl

/-- C4: when the repository name resolves, the parent directory is
created, and `Stat` reports that the target directory already exists,
`Create` returns the "directory already exists" error and invokes no
git step at all — in particular not the worktree-add step. -/
theorem create_fails_if_exists (m : Manager) (env : Env) (ticket baseBranch repo : String)
    (hrepo : env.getRepoName = Except.ok repo)
    (hmk : env.mkdirAll (fpDir (filepathJoin [m.basePath, repo, ticket])) = none)
    (hstat : env.stat (filepathJoin [m.basePath, repo, ticket]) = StatOutcome.ok) :
    (Manager.Create m env ticket baseBranch).result =
      Except.error ("directory already exists: " ++ filepathJoin [m.basePath, repo, ticket]) ∧
    (Manager.Create m env ticket baseBranch).steps = [] := by
  constructor <;> simp [Manager.Create, hrepo, hmk, hstat]

theorem create_fails_if_exists_witness :
    (Manager.Create m1 env1 "T-1" "main").result =
      Except.error ("directory already exists: " ++ filepathJoin [m1.basePath, "repo", "T-1"]) ∧
    (Manager.Create m1 env1 "T-1" "main").steps = [] :=
  create_fails_if_exists m1 env1 "T-1" "main" "repo" rfl rfl rfl

/-- C5: when the repository name resolves and the worktree directory
does not exist on disk, `Delete` returns the not-found error and
invokes no git step at all — in particular neither the worktree-remove
step nor the branch-delete step. -/
theorem delete_fails_if_absent (m : Manager) (env : Env) (ticket repo : String) (d : Bool)
    (hrepo : env.getRepoName = Except.ok repo)
    (hstat : env.stat (filepathJoin [m.basePath, repo, ticket]) = StatOutcome.errNotExist) :
    (Manager.Delete m env ticket d).result =
      Except.error ("worktree for ticket " ++ ticket ++ " not found") ∧
    (Manager.Delete m env ticket d).steps = [] := by
  constructor <;> simp [Manager.Delete, Manager.GetPath, hrepo, hstat]

theorem delete_fails_if_absent_witness :
    (Manager.Delete m1 env3 "T-1" true).result =
      Except.error ("worktree for ticket " ++ "T-1" ++ " not found") ∧
    (Manager.Delete m1 env3 "T-1" true).steps = [] :=
  delete_fails_if_absent m1 env3 "T-1" "repo" true rfl rfl

/-- C9: `Create`'s existence pre-check treats every `Stat` outcome
other than a not-exist error as "directory already exists": success
and any other error (for example a permission error) both yield that
error with no git step invoked, and the worktree-add step is reached
only when `Stat` reports not-exist. -/
theorem create_stat_gate (m : Manager) (env : Env) (ticket baseBranch repo : String)
    (hrepo : env.getRepoName = Except.ok repo)
    (hmk : env.mkdirAll (fpDir (filepathJoin [m.basePath, repo, ticket])) = none) :
    (env.stat (filepathJoin [m.basePath, repo, ticket]) ≠ StatOutcome.errNotExist →
      (Manager.Create m env ticket baseBranch).result =
        Except.error ("directory already exists: " ++ filepathJoin [m.basePath, repo, ticket]) ∧
      (Manager.Create m env ticket baseBranch).steps = []) ∧
    (∀ p b, GitStep.createWorktree p b ∈ (Manager.Create m env ticket baseBranch).steps →
      env.stat (filepathJoin [m.basePath, repo, ticket]) = StatOutcome.errNotExist) := by
  cases hs : env.stat (filepathJoin [m.basePath, repo, ticket]) with
  | ok =>
    refine ⟨fun _ => ?_, fun p b hmem => ?_⟩
    · constructor <;> simp [Manager.Create, hrepo, hmk, hs]
    · simp [Manager.Create, hrepo, hmk, hs] at hmem
  | errNotExist =>
    exact ⟨fun hne => absurd rfl hne, fun _ _ _ => rfl⟩
  | errOther =>
    refine ⟨fun _ => ?_, fun p b hmem => ?_⟩
    · constructor <;> simp [Manager.Create, hrepo, hmk, hs]
    · simp [Manager.Create, hrepo, hmk, hs] at hmem

theorem create_stat_gate_witness :
    (Manager.Create m1 env2 "T-1" "main").result =
      Except.error ("directory already exists: " ++ filepathJoin [m1.basePath, "repo", "T-1"]) ∧
    (Manager.Create m1 env2 "T-1" "main").steps = [] :=
  (create_stat_gate m1 env2 "T-1" "main" "repo" rfl rfl).1 (by decide)

/-- C10: `Delete` with the delete-branch option is not atomic: the
branch-delete step runs only after the worktree-remove step succeeded
(a removal failure returns an error without any branch-delete step),
and if branch deletion then fails, `Delete` returns an error although
the worktree-remove step has already been performed, with no
compensating step. -/
theorem delete_not_atomic (m : Manager) (env : Env) (ticket repo : String)
    (hrepo : env.getRepoName = Except.ok repo)
    (hstat : env.stat (filepathJoin [m.basePath, repo, ticket]) ≠ StatOutcome.errNotExist) :
    (∀ e, env.removeWorktree (filepathJoin [m.basePath, repo, ticket]) = some e →
      (Manager.Delete m env ticket true).result =
        Except.error ("failed to remove worktree: " ++ e) ∧
      (Manager.Delete m env ticket true).steps =
        [GitStep.removeWorktree (filepathJoin [m.basePath, repo, ticket])]) ∧
    (env.removeWorktree (filepathJoin [m.basePath, repo, ticket]) = none →
      ∀ e, env.deleteBranch ticket = some e →
      (Manager.Delete m env ticket true).result =
        Except.error ("failed to delete branch: " ++ e) ∧
      (Manager.Delete m env ticket true).steps =
        [GitStep.removeWorktree (filepathJoin [m.basePath, repo, ticket]),
         GitStep.deleteBranch ticket]) := by
  cases hs : env.stat (filepathJoin [m.basePath, repo, ticket]) with
  | errNotExist => exact absurd hs hstat
  | ok =>
    constructor
    · intro e he
      constructor <;> simp [Manager.Delete, Manager.GetPath, hrepo, hs, he]
    · intro hr e he
      constructor <;> simp [Manager.Delete, Manager.GetPath, hrepo, hs, hr, he]
  | errOther =>
    constructor
    · intro e he
      constructor <;> simp [Manager.Delete, Manager.GetPath, hrepo, hs, he]
    · intro hr e he
      constructor <;> simp [Manager.Delete, Manager.GetPath, hrepo, hs, hr, he]

theorem delete_not_atomic_witness :
    (Manager.Delete m1 env4 "T-1" true).result =
      Except.error ("failed to delete branch: " ++ "branch gone") ∧
    (Manager.Delete m1 env4 "T-1" true).steps =
      [GitStep.removeWorktree (filepathJoin [m1.basePath, "repo", "T-1"]),
       GitStep.deleteBranch "T-1"] :=
  (delete_not_atomic m1 env4 "T-1" "repo" rfl (by decide)).2 rfl "branch gone" rfl

/-- C8: the manager's base path is resolved once at construction as the
join of the user's home directory with "worktrees" (when the home
directory resolves), and none of the four operations changes the
receiver afterwards. -/
theorem basePath_immutable (env : Env) (home ticket baseBranch : String) (d : Bool)
    (m : Manager) (h : env.userHomeDir = Except.ok home) :
    (NewManager env).basePath = filepathJoin [home, "worktrees"] ∧
    (Manager.GetPath m env ticket).post = m ∧
    (Manager.Create m env ticket baseBranch).post = m ∧
    (Manager.Delete m env ticket d).post = m ∧
    (Manager.List m env).post = m := by
  refine ⟨?_, ?_, ?_, ?_, ?_⟩
  · simp [NewManager, getWorktreeBasePath, h]
  · unfold Manager.GetPath
    split <;> rfl
  · unfold Manager.Create
    repeat' split
    all_goals rfl
  · unfold Manager.Delete Manager.GetPath
    repeat' split
    all_goals rfl
  · unfold Manager.List
    repeat' split
    all_goals rfl

theorem basePath_immutable_witness :
    (NewManager env1).basePath = filepathJoin ["/home/u", "worktrees"] ∧
    (Manager.GetPath m1 env1 "T-1").post = m1 ∧
    (Manager.Create m1 env1 "T-1" "main").post = m1 ∧
    (Manager.Delete m1 env1 "T-1" true).post = m1 ∧
    (Manager.List m1 env1).post = m1 :=
  basePath_immutable env1 "/home/u" "T-1" "main" true m1 rfl

/-- C6 counterexample: a fetch-branch failure's error does not carry
the command's combined output — `FetchBranch` uses `cmd.Run()` and
wraps only the exec error, so the combined output text never reaches
the returned error. -/
theorem fetch_error_lacks_output :
    Client.FetchBranch "main"
      { exitOk := false, stdout := "", combined := "fatal: not a git repository",
        errMsg := "exit status 128" } =
      some "failed to fetch branch: exit status 128" ∧
    strContains "failed to fetch branch: exit status 128" "fatal: not a git repository"
      = false :=
  ⟨rfl, rfl⟩

/-- C6 (amended): every git-collaborator operation returns an error
exactly when the underlying external command fails; for create-worktree,
remove-worktree and delete-branch (which use `CombinedOutput`) the
error carries the command's combined output text, while
get-repository-name, fetch-branch and list-worktrees wrap only a fixed
context message around the exec error. -/
theorem client_error_iff_cmd_fails (res : CmdResult) (path branch : String) :
    (exceptIsOk (Client.GetRepoName res) = res.exitOk) ∧
    ((Client.FetchBranch branch res).isNone = res.exitOk) ∧
    ((Client.CreateWorktree path branch res).isNone = res.exitOk) ∧
    ((Client.RemoveWorktree path res).isNone = res.exitOk) ∧
    ((Client.DeleteBranch branch res).isNone = res.exitOk) ∧
    (exceptIsOk (Client.ListWorktrees res) = res.exitOk) ∧
    (res.exitOk = false →
      Client.GetRepoName res = Except.error ("not in a git repository: " ++ res.errMsg) ∧
      Client.FetchBranch branch res = some ("failed to fetch branch: " ++ res.errMsg) ∧
      Client.ListWorktrees res = Except.error ("failed to list worktrees: " ++ res.errMsg) ∧
      Client.CreateWorktree path branch res = some (res.combined ++ ": " ++ res.errMsg) ∧
      Client.RemoveWorktree path res = some (res.combined ++ ": " ++ res.errMsg) ∧
      Client.DeleteBranch branch res = some (res.combined ++ ": " ++ res.errMsg) ∧
      strContains (res.combined ++ ": " ++ res.errMsg) res.combined = true) := by
  rcases res with ⟨ok, so, co, em⟩
  cases ok with
  | true =>
    exact ⟨rfl, rfl, rfl, rfl, rfl, rfl, fun hfalse => nomatch hfalse⟩
  | false =>
    exact ⟨rfl, rfl, rfl, rfl, rfl, rfl,
      fun _ => ⟨rfl, rfl, rfl, rfl, rfl, rfl, strContains_append_self co ": " em⟩⟩

theorem client_error_iff_cmd_fails_witness :
    Client.CreateWorktree "/p" "b"
      { exitOk := false, stdout := "", combined := "fatal: exists",
        errMsg := "exit status 1" } =
      some ("fatal: exists" ++ ": " ++ "exit status 1") ∧
    Client.RemoveWorktree "/p"
      { exitOk := false, stdout := "", combined := "fatal: exists",
        errMsg := "exit status 1" } =
      some ("fatal: exists" ++ ": " ++ "exit status 1") ∧
    Client.DeleteBranch "b"
      { exitOk := false, stdout := "", combined := "fatal: exists",
        errMsg := "exit status 1" } =
      some ("fatal: exists" ++ ": " ++ "exit status 1") ∧
    strContains ("fatal: exists" ++ ": " ++ "exit status 1") "fatal: exists" = true :=
  ((client_error_iff_cmd_fails
    { exitOk := false, stdout := "", combined := "fatal: exists",
      errMsg := "exit status 1" } "/p" "b").2.2.2.2.2.2 rfl).2.2.2

/-- C7 counterexample: a git fetch error during `Create` is not
terminal — `Create` prints a warning and continues, returns success,
and the handler exits 0, although the fetch-branch git operation was
invoked and returned an error. -/
theorem fetch_error_not_terminal :
    env3.fetchBranch "main" = some "could not resolve host" ∧
    GitStep.fetchBranch "main" ∈ (Manager.Create (NewManager env3) env3 "T-1" "main").steps ∧
    (Manager.Create (NewManager env3) env3 "T-1" "main").result = Except.ok () ∧
    handleCreate env3 "T-1" "main" = 0 :=
  ⟨rfl, List.mem_cons_self _ _, rfl, rfl⟩

/-- C7 (amended): every handler exits with status 1 exactly when its
manager operation returns an error, and errors from git or the
filesystem propagate as terminal failures — with the single exception
that a fetch-branch failure during create is reported as a warning and
does not fail the operation: when the repository name resolves, the
parent directory is created, the target does not exist and the
worktree-add step succeeds, `Create` succeeds no matter what the fetch
step returned. -/
theorem errors_exit_one (env : Env) (ticket baseBranch : String) (d : Bool) :
    (handleCreate env ticket baseBranch =
      if exceptIsOk (Manager.Create (NewManager env) env ticket baseBranch).result
      then 0 else 1) ∧
    (handleDelete env ticket d =
      if exceptIsOk (Manager.Delete (NewManager env) env ticket d).result then 0 else 1) ∧
    (handleList env = if exceptIsOk (Manager.List (NewManager env) env).result then 0 else 1) ∧
    (handleCD env ticket =
      if exceptIsOk (Manager.GetPath (NewManager env) env ticket).result then 0 else 1) ∧
    (∀ repo, env.getRepoName = Except.ok repo →
      env.mkdirAll (fpDir (filepathJoin [(NewManager env).basePath, repo, ticket])) = none →
      env.stat (filepathJoin [(NewManager env).basePath, repo, ticket]) =
        StatOutcome.errNotExist →
      env.createWorktree (filepathJoin [(NewManager env).basePath, repo, ticket]) ticket =
        none →
      (Manager.Create (NewManager env) env ticket baseBranch).result = Except.ok () ∧
      GitStep.fetchBranch baseBranch ∈
        (Manager.Create (NewManager env) env ticket baseBranch).steps) := by
  refine ⟨?_, ?_, ?_, ?_, ?_⟩
  · cases hc : (Manager.Create (NewManager env) env ticket baseBranch).result with
    | error e => simp [handleCreate, hc, exceptIsOk]
    | ok u => simp [handleCreate, hc, exceptIsOk]
  · cases hc : (Manager.Delete (NewManager env) env ticket d).result with
    | error e => simp [handleDelete, hc, exceptIsOk]
    | ok u => simp [handleDelete, hc, exceptIsOk]
  · cases hc : (Manager.List (NewManager env) env).result with
    | error e => simp [handleList, hc, exceptIsOk]
    | ok u => simp [handleList, hc, exceptIsOk]
  · cases hc : (Manager.GetPath (NewManager env) env ticket).result with
    | error e => simp [handleCD, hc, exceptIsOk]
    | ok u => simp [handleCD, hc, exceptIsOk]
  · intro repo h1 h2 h3 h4
    constructor <;> simp [Manager.Create, h1, h2, h3, h4]

theorem errors_exit_one_witness :
    (Manager.Create (NewManager env3) env3 "T-1" "main").result = Except.ok () ∧
    GitStep.fetchBranch "main" ∈ (Manager.Create (NewManager env3) env3 "T-1" "main").steps :=
  (errors_exit_one env3 "T-1" "main" true).2.2.2.2 "repo" rfl rfl rfl rfl

/-- Helper for C1: under the hypotheses of the claim, `List` succeeds
and its rows are exactly one row per on-disk directory entry, labelled
via the path-to-branch map. -/
theorem list_result_eq (m : Manager) (env : Env) (repo : String)
    (worktrees : List Worktree) (entries : List DirEntry)
    (hrepo : env.getRepoName = Except.ok repo)
    (hlist : env.listWorktrees = Except.ok worktrees)
    (hstat : env.stat (filepathJoin [m.basePath, repo]) ≠ StatOutcome.errNotExist)
    (hread : env.readDir (filepathJoin [m.basePath, repo]) = Except.ok entries) :
    (Manager.List m env).result =
      Except.ok ((entries.filter (fun entry => entry.isDir)).map (fun entry =>
        { ticket := entry.name,
          path := filepathJoin [filepathJoin [m.basePath, repo], entry.name],
          branch := (match worktreeMapOf worktrees
              (filepathJoin [filepathJoin [m.basePath, repo], entry.name]) with
            | some b => b
            | none => "detached") })) := by
  cases hs : env.stat (filepathJoin [m.basePath, repo]) with
  | errNotExist => exact absurd hs hstat
  | ok =>
    simp only [Manager.List, hrepo, hlist, hs, hread]
    rw [listRows_foldl]
    simp
  | errOther =>
    simp only [Manager.List, hrepo, hlist, hs, hread]
    rw [listRows_foldl]
    simp

/-- C1: for every on-disk directory entry under the repository's
worktree directory, `List` emits a row for that entry whose branch
label is the branch of a git worktree record whose path equals the
joined path when such a record exists, and "detached" when no git
record has that path. -/
theorem list_labels_detached (m : Manager) (env : Env) (repo : String)
    (worktrees : List Worktree) (entries : List DirEntry) (entry : DirEntry)
    (hrepo : env.getRepoName = Except.ok repo)
    (hlist : env.listWorktrees = Except.ok worktrees)
    (hstat : env.stat (filepathJoin [m.basePath, repo]) ≠ StatOutcome.errNotExist)
    (hread : env.readDir (filepathJoin [m.basePath, repo]) = Except.ok entries)
    (hmem : entry ∈ entries) (hdir : entry.isDir = true) :
    ∃ rows b, (Manager.List m env).result = Except.ok rows ∧
      { ticket := entry.name,
        path := filepathJoin [filepathJoin [m.basePath, repo], entry.name],
        branch := b } ∈ rows ∧
      ((∀ wt ∈ worktrees,
          wt.Path ≠ filepathJoin [filepathJoin [m.basePath, repo], entry.name]) →
        b = "detached") ∧
      (∀ wt ∈ worktrees,
        wt.Path = filepathJoin [filepathJoin [m.basePath, repo], entry.name] →
        ∃ wt2 ∈ worktrees,
          wt2.Path = filepathJoin [filepathJoin [m.basePath, repo], entry.name] ∧
          b = wt2.Branch) := by
  refine ⟨_, _, list_result_eq m env repo worktrees entries hrepo hlist hstat hread,
    List.mem_map_of_mem _ (List.mem_filter.mpr ⟨hmem, by simp [hdir]⟩), ?_, ?_⟩
  · intro hall
    have hn : worktreeMapOf worktrees
        (filepathJoin [filepathJoin [m.basePath, repo], entry.name]) = none :=
      (worktreeMapOf_none_iff _ _).mpr hall
    simp [hn]
  · intro wt hwt hpath
    cases hmap : worktreeMapOf worktrees
        (filepathJoin [filepathJoin [m.basePath, repo], entry.name]) with
    | none => exact absurd hpath ((worktreeMapOf_none_iff _ _).mp hmap wt hwt)
    | some b0 =>
      obtain ⟨wt2, hm2, hp2, hb2⟩ := worktreeMapOf_some _ _ _ hmap
      exact ⟨wt2, hm2, hp2, by simp [hmap, hb2]⟩

theorem list_labels_detached_witness :
    ∃ rows b, (Manager.List m1 env1).result = Except.ok rows ∧
      { ticket := "T-1",
        path := filepathJoin [filepathJoin [m1.basePath, "repo"], "T-1"],
        branch := b } ∈ rows ∧
      ((∀ wt ∈ [({ Path := "/base/repo/T-1", Branch := "feature-x" } : Worktree)],
          wt.Path ≠ filepathJoin [filepathJoin [m1.basePath, "repo"], "T-1"]) →
        b = "detached") ∧
      (∀ wt ∈ [({ Path := "/base/repo/T-1", Branch := "feature-x" } : Worktree)],
        wt.Path = filepathJoin [filepathJoin [m1.basePath, "repo"], "T-1"] →
        ∃ wt2 ∈ [({ Path := "/base/repo/T-1", Branch := "feature-x" } : Worktree)],
          wt2.Path = filepathJoin [filepathJoin [m1.basePath, "repo"], "T-1"] ∧
          b = wt2.Branch) :=
  list_labels_detached m1 env1 "repo"
    [{ Path := "/base/repo/T-1", Branch := "feature-x" }]
    [{ name := "T-1", isDir := true }] { name := "T-1", isDir := true }
    rfl rfl (by decide) rfl (by decide) rfl
